import Mathlib

/-!
Verification of the schema-descriptor versioning and safe-rename subsystem
found in pkg/sql/catalog/schemadesc/schema_desc.go.

The Go code is shallowly embedded: structs become Lean structures, methods
that mutate the receiver become functions returning the updated value
(single-writer semantics, per the concurrency model of the subsystem), and
the proto deep copies performed via protoutil.Clone are represented by the
value semantics of Lean data.  Machine-integer fields are modelled as
follows: IDs (uint32 in Go) and the descriptor version (uint64 in Go)
become Nat — the only arithmetic performed on them by this code is the
single increment in MaybeIncrementVersion, applied to a version counter
that starts at 1 and grows by at most one per committing transaction, so
wrap-around is unreachable and overflow does not matter; the hlc timestamp
components (int64/int32) become Int and are only ever set to the zero
value here.
-/

namespace Schemadesc

/-- Timestamp models hlc.Timestamp: a wall-time component (int64 in Go)
and a logical component (int32 in Go).  This code only ever assigns the
zero value, the "unset" timestamp. -/
structure Timestamp where
  wallTime : Int
  logical : Int
deriving DecidableEq, Repr

/-- The zero value of hlc.Timestamp, written hlc.Timestamp{} in Go.
It denotes an unset modification time. -/
def Timestamp.unset : Timestamp := ⟨0, 0⟩

/-- NameInfo models descpb.NameInfo: one retired identity tuple of the
draining-names ledger. -/
structure NameInfo where
  parentID : Nat
  parentSchemaID : Nat
  name : String
deriving DecidableEq, Repr

/-- Modelled from the spec: keys.RootNamespaceID, the root-namespace
sentinel (the keys package is outside the sources at hand; the spec says
the parent schema of a schema is always the database root namespace).
Its value in CockroachDB is 0.  All claims compare against this constant
symbolically, so nothing below depends on the concrete value. -/
def RootNamespaceID : Nat := 0

/-- Modelled from the spec: descpb.InvalidID, the invalid/zero descriptor
ID returned by OriginalID when no baseline exists ("its original
name/ID/version read as zero values"). -/
def InvalidID : Nat := 0

/-- SchemaDescriptor models descpb.SchemaDescriptor, the versioned record
for one schema.  The Privileges field is opaque to this package (never
read or written by the embedded code, only carried along), so it is
modelled as an opaque optional marker. -/
structure SchemaDescriptor where
  name : String
  id : Nat
  parentID : Nat
  version : Nat
  modificationTime : Timestamp
  drainingNames : List NameInfo
  privileges : Option Unit
deriving DecidableEq, Repr

/-- Immutable wraps a Schema descriptor, as in the Go source. -/
structure Immutable where
  schemaDescriptor : SchemaDescriptor
deriving DecidableEq, Repr

/-- Mutable is a mutable reference to a SchemaDescriptor: the working
copy (the embedded Immutable) plus the optional baseline ClusterVersion
(a *Immutable in Go, nil when the descriptor was created from scratch in
the current transaction). -/
structure Mutable extends Immutable where
  clusterVersion : Option Immutable
deriving DecidableEq, Repr

/-- makeImmutable from the source. -/
def makeImmutable (desc : SchemaDescriptor) : Immutable :=
  { schemaDescriptor := desc }

/-- NewImmutable makes a new Schema descriptor. -/
def NewImmutable (desc : SchemaDescriptor) : Immutable :=
  makeImmutable desc

/-- NewMutableExisting returns a Mutable from the given schema descriptor
with the cluster version also set to the descriptor.  This is for schemas
that already exist.  The protoutil.Clone deep copies of the Go source are
the identity on values here. -/
def NewMutableExisting (desc : SchemaDescriptor) : Mutable :=
  { toImmutable := makeImmutable desc
    clusterVersion := some (NewImmutable desc) }

/-- NewMutableCreatedSchemaDescriptor returns a Mutable from the given
SchemaDescriptor with the cluster version being the zero schema (nil).
This is for a schema that is created within the current transaction. -/
def NewMutableCreatedSchemaDescriptor (desc : SchemaDescriptor) : Mutable :=
  { toImmutable := makeImmutable desc
    clusterVersion := none }

/-- Field promoted from the embedded SchemaDescriptor, desc.Name in Go. -/
def Mutable.Name (m : Mutable) : String :=
  m.toImmutable.schemaDescriptor.name

/-- Field promoted from the embedded SchemaDescriptor, desc.ParentID in Go. -/
def Mutable.ParentID (m : Mutable) : Nat :=
  m.toImmutable.schemaDescriptor.parentID

/-- Field promoted from the embedded SchemaDescriptor, desc.Version in Go. -/
def Mutable.Version (m : Mutable) : Nat :=
  m.toImmutable.schemaDescriptor.version

/-- Field promoted from the embedded SchemaDescriptor, desc.ModificationTime
in Go. -/
def Mutable.ModificationTime (m : Mutable) : Timestamp :=
  m.toImmutable.schemaDescriptor.modificationTime

/-- Field promoted from the embedded SchemaDescriptor, desc.DrainingNames
in Go. -/
def Mutable.DrainingNames (m : Mutable) : List NameInfo :=
  m.toImmutable.schemaDescriptor.drainingNames

/-- SetDrainingNames implements the MutableDescriptor interface:
desc.DrainingNames = names. -/
def Mutable.SetDrainingNames (m : Mutable) (names : List NameInfo) : Mutable :=
  { m with toImmutable := { schemaDescriptor :=
      { m.toImmutable.schemaDescriptor with drainingNames := names } } }

/-- GetParentSchemaID implements the Descriptor interface: it returns
keys.RootNamespaceID unconditionally. -/
def Immutable.GetParentSchemaID (_ : Immutable) : Nat :=
  RootNamespaceID

/-- AuditMode models descpb.TableDescriptor_AuditMode (a table-only
concept; modelled from the spec since descpb is outside the sources at
hand, with the two states DISABLED and READWRITE). -/
inductive AuditMode where
  | disabled
  | readwrite
deriving DecidableEq, Repr

/-- GetAuditMode implements the DescriptorProto interface: it returns
descpb.TableDescriptor_DISABLED unconditionally. -/
def Immutable.GetAuditMode (_ : Immutable) : AuditMode :=
  AuditMode.disabled

/-- TypeName implements the DescriptorProto interface. -/
def Immutable.TypeName (_ : Immutable) : String :=
  "schema"

/-- Adding implements the Descriptor interface. -/
def Immutable.Adding (_ : Immutable) : Bool :=
  false

/-- Offline implements the Descriptor interface. -/
def Immutable.Offline (_ : Immutable) : Bool :=
  false

/-- GetOfflineReason implements the Descriptor interface. -/
def Immutable.GetOfflineReason (_ : Immutable) : String :=
  ""

/-- MaybeIncrementVersion implements the MutableDescriptor interface:
no-op when ClusterVersion is nil or the working version already equals
the cluster version plus one; otherwise increment Version and reset
ModificationTime to the zero timestamp. -/
def Mutable.MaybeIncrementVersion (m : Mutable) : Mutable :=
  match m.clusterVersion with
  | none => m
  | some cv =>
    if m.toImmutable.schemaDescriptor.version = cv.schemaDescriptor.version + 1 then
      m
    else
      { m with toImmutable := { schemaDescriptor :=
          { m.toImmutable.schemaDescriptor with
              version := m.toImmutable.schemaDescriptor.version + 1
              modificationTime := Timestamp.unset } } }

/-- OriginalName implements the MutableDescriptor interface. -/
def Mutable.OriginalName (m : Mutable) : String :=
  match m.clusterVersion with
  | none => ""
  | some cv => cv.schemaDescriptor.name

/-- OriginalID implements the MutableDescriptor interface. -/
def Mutable.OriginalID (m : Mutable) : Nat :=
  match m.clusterVersion with
  | none => InvalidID
  | some cv => cv.schemaDescriptor.id

/-- OriginalVersion implements the MutableDescriptor interface. -/
def Mutable.OriginalVersion (m : Mutable) : Nat :=
  match m.clusterVersion with
  | none => 0
  | some cv => cv.schemaDescriptor.version

/-- ImmutableCopy implements the MutableDescriptor interface: it returns
NewImmutable applied to a deep copy (protoutil.Clone) of the working
record; the deep copy is the identity on values. -/
def Mutable.ImmutableCopy (m : Mutable) : Immutable :=
  NewImmutable m.toImmutable.schemaDescriptor

/-- IsNew implements the MutableDescriptor interface: true when
ClusterVersion is nil. -/
def Mutable.IsNew (m : Mutable) : Bool :=
  m.clusterVersion.isNone

/-- SetName sets the name of the schema.  It appends a draining name for
the old name of the descriptor, then installs the new name. -/
def Mutable.SetName (m : Mutable) (name : String) : Mutable :=
  { m with toImmutable := { schemaDescriptor :=
      { m.toImmutable.schemaDescriptor with
          drainingNames := m.toImmutable.schemaDescriptor.drainingNames ++
            [⟨m.toImmutable.schemaDescriptor.parentID, RootNamespaceID,
              m.toImmutable.schemaDescriptor.name⟩]
          name := name } } }

/-- PgError models the error value built by pgerror.Newf followed by
errors.WithDetail: a pg error code, a message, and a detail string. -/
structure PgError where
  code : String
  message : String
  detail : String
deriving DecidableEq, Repr

/-- Modelled from the spec: pgcode.ReservedName, the pg error code
attached to a reserved-name rejection (the pgcode package is outside the
sources at hand); its SQLSTATE value is 42939. -/
def reservedNameCode : String := "42939"

/-- Modelled from the spec: sessiondata.PgSchemaPrefix, the reserved
system-schema name prefix (the sessiondata package is outside the sources
at hand; the spec and the comments of the embedded source both name the
prefix pg_). -/
def pgSchemaPref : String := "pg_"

/-- The detail (remediation hint) attached to a reserved-name rejection. -/
def reservedPrefixDetail : String :=
  "The prefix \"pg_\" is reserved for system schemas."

/-- hasPrefix models strings.HasPrefix from the Go standard library:
whether pre is a prefix of s. -/
def hasPrefix (s pre : String) : Bool :=
  pre.data.isPrefixOf s.data

/-- IsSchemaNameValid returns whether the input name is valid for a user
defined schema: names starting with the reserved prefix are rejected with
a ReservedName error carrying the remediation detail; every other name is
accepted (nil error, modelled as none). -/
def IsSchemaNameValid (name : String) : Option PgError :=
  if hasPrefix name pgSchemaPref then
    some { code := reservedNameCode
           message := "unacceptable schema name \"" ++ name ++ "\""
           detail := reservedPrefixDetail }
  else
    none

/-- Op enumerates the mutation operations of the MutableDescriptor
surface, used to quantify over arbitrary sequences of mutations. -/
inductive Op where
  | setName (name : String)
  | setDrainingNames (names : List NameInfo)
  | maybeIncrementVersion
deriving DecidableEq, Repr

/-- Apply one mutation operation to the working copy. -/
def applyOp (op : Op) (m : Mutable) : Mutable :=
  match op with
  | Op.setName n => m.SetName n
  | Op.setDrainingNames l => m.SetDrainingNames l
  | Op.maybeIncrementVersion => m.MaybeIncrementVersion

/-- Apply a sequence of mutation operations, oldest first. -/
def applyOps (ops : List Op) (m : Mutable) : Mutable :=
  ops.foldl (fun acc op => applyOp op acc) m

/-- A sample descriptor record for witnesses, version 3, as in scenario S2
of the spec. -/
def dSample : SchemaDescriptor :=
  { name := "s", id := 4, parentID := 7, version := 3
    modificationTime := ⟨9, 1⟩, drainingNames := [], privileges := some () }

/-- A sample descriptor record carrying the invalid (zero) ID. -/
def dZeroID : SchemaDescriptor :=
  { name := "s", id := 0, parentID := 7, version := 3
    modificationTime := ⟨9, 1⟩, drainingNames := [], privileges := some () }

/-- The name used in scenario S4 for a rejected candidate. -/
def pgExtraName : String := "pg_extra"

/-- The name used in scenario S4 for an accepted candidate. -/
def mySchemaName : String := "myschema"

/- Helper lemmas shared between claims. -/

/-- A single mutation operation never touches the baseline. -/
lemma applyOp_clusterVersion (op : Op) (m : Mutable) :
    (applyOp op m).clusterVersion = m.clusterVersion := by
  cases op with
  | setName n => rfl
  | setDrainingNames l => rfl
  | maybeIncrementVersion =>
    show (m.MaybeIncrementVersion).clusterVersion = m.clusterVersion
    unfold Mutable.MaybeIncrementVersion
    cases h : m.clusterVersion with
    | none => exact h
    | some cv =>
      by_cases hv : m.toImmutable.schemaDescriptor.version =
          cv.schemaDescriptor.version + 1
      · simp [hv, h]
      · simp [hv]

/-- A sequence of mutation operations never touches the baseline. -/
lemma applyOps_clusterVersion (ops : List Op) :
    ∀ m : Mutable, (applyOps ops m).clusterVersion = m.clusterVersion := by
  induction ops with
  | nil => intro m; rfl
  | cons op ops ih =>
    intro m
    have h1 : applyOps (op :: ops) m = applyOps ops (applyOp op m) := rfl
    rw [h1, ih (applyOp op m), applyOp_clusterVersion]

/-- C1: SetName appends exactly one entry to DrainingNames — the tuple of
the current ParentID, the root-namespace sentinel and the pre-rename
Name — and then sets the descriptor's Name to the new name; the ledger is
otherwise untouched (the old entries are preserved in order, nothing else
is added or removed). -/
theorem claim_C1 (m : Mutable) (newName : String) :
    (m.SetName newName).DrainingNames =
      m.DrainingNames ++ [⟨m.ParentID, RootNamespaceID, m.Name⟩] ∧
    (m.SetName newName).Name = newName :=
  ⟨rfl, rfl⟩

/-- C5: on a mutable descriptor constructed without a baseline
(NewMutableCreatedSchemaDescriptor), MaybeIncrementVersion is a no-op:
the whole descriptor value, every field included, is unchanged. -/
theorem claim_C5 (desc : SchemaDescriptor) :
    (NewMutableCreatedSchemaDescriptor desc).MaybeIncrementVersion =
      NewMutableCreatedSchemaDescriptor desc :=
  rfl

/-- C7: ImmutableCopy publishes a snapshot whose record equals the
working copy at call time — at every point of any mutation sequence.  In
this value-semantics embedding the deep copy performed by the Go source
(protoutil.Clone) is the identity on values, and a snapshot once computed
is a value that no later mutation of the working copy can alter by
construction; the theorem states the call-time equality both for the
descriptor itself and after an arbitrary sequence of SetName,
SetDrainingNames and MaybeIncrementVersion operations. -/
theorem claim_C7 (m : Mutable) (ops : List Op) :
    (m.ImmutableCopy).schemaDescriptor = m.toImmutable.schemaDescriptor ∧
    ((applyOps ops m).ImmutableCopy).schemaDescriptor =
      (applyOps ops m).toImmutable.schemaDescriptor :=
  ⟨rfl, rfl⟩

/-- C8: on every immutable snapshot, whatever the record holds, the
parent-schema accessor returns the root-namespace sentinel, the
audit-mode accessor returns disabled, the kind-name accessor returns
the string schema, the adding and offline predicates return false, and
the offline-reason accessor returns the empty string. -/
theorem claim_C8 (desc : Immutable) :
    desc.GetParentSchemaID = RootNamespaceID ∧
    desc.GetAuditMode = AuditMode.disabled ∧
    desc.TypeName = "schema" ∧
    desc.Adding = false ∧
    desc.Offline = false ∧
    desc.GetOfflineReason = "" :=
  ⟨rfl, rfl, rfl, rfl, rfl, rfl⟩

/-- C9: every sequence of SetName, SetDrainingNames and
MaybeIncrementVersion operations leaves the baseline untouched:
OriginalName, OriginalID and OriginalVersion are the same before and
after. -/
theorem claim_C9 (m : Mutable) (ops : List Op) :
    (applyOps ops m).OriginalName = m.OriginalName ∧
    (applyOps ops m).OriginalID = m.OriginalID ∧
    (applyOps ops m).OriginalVersion = m.OriginalVersion := by
  have h := applyOps_clusterVersion ops m
  unfold Mutable.OriginalName Mutable.OriginalID Mutable.OriginalVersion
  rw [h]
  exact ⟨rfl, rfl, rfl⟩

/-- C3: with a baseline present and the working version not already one
past the baseline version, MaybeIncrementVersion increments the working
version by exactly one and resets ModificationTime to the unset (zero)
timestamp. -/
theorem claim_C3 (m : Mutable) (cv : Immutable)
    (h1 : m.clusterVersion = some cv)
    (h2 : m.Version ≠ cv.schemaDescriptor.version + 1) :
    (m.MaybeIncrementVersion).Version = m.Version + 1 ∧
    (m.MaybeIncrementVersion).ModificationTime = Timestamp.unset := by
  simp only [Mutable.Version] at h2
  simp only [Mutable.Version, Mutable.ModificationTime]
  unfold Mutable.MaybeIncrementVersion
  rw [h1]
  simp [h2]

/-- Witness for C3 at the sample descriptor of scenario S2: working
version 3, baseline version 3. -/
theorem claim_C3_witness :
    ((NewMutableExisting dSample).MaybeIncrementVersion).Version =
      (NewMutableExisting dSample).Version + 1 ∧
    ((NewMutableExisting dSample).MaybeIncrementVersion).ModificationTime =
      Timestamp.unset :=
  claim_C3 (NewMutableExisting dSample) (NewImmutable dSample) rfl (by decide)

/-- C4: the name validator rejects a candidate name, with an error whose
detail is the reserved-prefix remediation hint, exactly when the name
starts with the reserved system-schema prefix (the literal pg_), and
accepts every other name (returns the nil error, modelled as none). -/
theorem claim_C4 (name : String) :
    pgSchemaPref = "pg_" ∧
    ((∃ e, IsSchemaNameValid name = some e ∧ e.detail = reservedPrefixDetail) ↔
      hasPrefix name pgSchemaPref = true) ∧
    ( hasPrefix name pgSchemaPref = false → IsSchemaNameValid name = none) := by
  refine ⟨rfl, ⟨?_, ?_⟩, ?_⟩
  · rintro ⟨e, he, _⟩
    by_cases h : hasPrefix name pgSchemaPref = true
    · exact h
    · simp [IsSchemaNameValid, h] at he
  · intro h
    unfold IsSchemaNameValid
    rw [if_pos h]
    exact ⟨_, rfl, rfl⟩
  · intro h
    simp [IsSchemaNameValid, h]

/-- Witness for C4 at the concrete names of scenario S4: myschema is
accepted, pg_extra is rejected with the remediation detail. -/
theorem claim_C4_witness :
    hasPrefix mySchemaName pgSchemaPref = false ∧
    IsSchemaNameValid mySchemaName = none ∧
    (∃ e, IsSchemaNameValid pgExtraName = some e ∧
      e.detail = reservedPrefixDetail) :=
  ⟨by decide, (claim_C4 mySchemaName).2.2 (by decide),
    (claim_C4 pgExtraName).2.1.mpr (by decide)⟩

/-- Counterexample to C6 as stated: a baseline whose own ID is the
invalid (zero) ID is accepted unchecked by NewMutableExisting, and on the
resulting descriptor OriginalID returns the invalid ID even though a
baseline exists and IsNew is false — refuting the biconditional between
IsNew and OriginalID returning the invalid ID. -/
theorem claim_C6_counterexample :
    ¬ ((NewMutableExisting dZeroID).IsNew = true ↔
        (NewMutableExisting dZeroID).OriginalID = InvalidID) := by
  decide

/-- C6 (amended): IsNew is true exactly when the baseline is absent; when
the baseline is absent, OriginalID returns the invalid (zero) ID,
OriginalName the empty string and OriginalVersion zero; when a baseline
is present, each accessor returns the corresponding baseline field (so
OriginalID can also return the invalid ID with a baseline present, when
the baseline record itself carries the zero ID). -/
theorem claim_C6 (m : Mutable) :
    (m.IsNew = true ↔ m.clusterVersion = none) ∧
    (m.clusterVersion = none →
      m.OriginalID = InvalidID ∧ m.OriginalName = "" ∧
      m.OriginalVersion = 0) ∧
    (∀ cv, m.clusterVersion = some cv →
      m.OriginalName = cv.schemaDescriptor.name ∧
      m.OriginalID = cv.schemaDescriptor.id ∧
      m.OriginalVersion = cv.schemaDescriptor.version) := by
  refine ⟨?_, ?_, ?_⟩
  · cases h : m.clusterVersion <;> simp [Mutable.IsNew, h]
  · intro h
    simp [Mutable.OriginalID, Mutable.OriginalName, Mutable.OriginalVersion, h]
  · intro cv h
    simp [Mutable.OriginalID, Mutable.OriginalName, Mutable.OriginalVersion, h]

/-- Witness for C6 at concrete inputs: a from-scratch descriptor reads
the invalid original ID, an existing one reads its baseline name. -/
theorem claim_C6_witness :
    (NewMutableCreatedSchemaDescriptor dSample).OriginalID = InvalidID ∧
    (NewMutableExisting dSample).OriginalName = "s" :=
  ⟨((claim_C6 (NewMutableCreatedSchemaDescriptor dSample)).2.1 rfl).1,
    ((claim_C6 (NewMutableExisting dSample)).2.2 (NewImmutable dSample) rfl).1⟩

/-- On a descriptor built by NewMutableExisting, a second call to
MaybeIncrementVersion is absorbed by the first: the first call bumps the
working version to the baseline version plus one, after which the guard
fires. -/
lemma miv_fixed (d : SchemaDescriptor) :
    ((NewMutableExisting d).MaybeIncrementVersion).MaybeIncrementVersion =
      (NewMutableExisting d).MaybeIncrementVersion := by
  simp [NewMutableExisting, NewImmutable, makeImmutable,
    Mutable.MaybeIncrementVersion]

/-- Iterating a function from a point where one application is a fixed
point stays at that fixed point. -/
lemma iterate_fix {α : Type} (f : α → α) (x : α) (hf : f (f x) = f x) :
    ∀ n : Nat, f^[n] (f x) = f x := by
  intro n
  induction n with
  | zero => rfl
  | succ k ih => rw [Function.iterate_succ_apply, hf, ih]

/-- C2: on a descriptor with a baseline (NewMutableExisting), calling
MaybeIncrementVersion any number N of times, N at least one, leaves the
same final working version as calling it exactly once — repeated calls
within one transaction never double-increment. -/
theorem claim_C2 (d : SchemaDescriptor) (n : Nat) (h : 1 ≤ n) :
    (Mutable.MaybeIncrementVersion^[n] (NewMutableExisting d)).Version =
      ((NewMutableExisting d).MaybeIncrementVersion).Version := by
  obtain ⟨k, rfl⟩ := Nat.exists_eq_add_of_le h
  rw [Nat.add_comm, Function.iterate_succ_apply,
    iterate_fix _ _ (miv_fixed d)]

/-- Witness for C2: three consecutive calls on the sample descriptor end
at the same version as one call. -/
theorem claim_C2_witness :
    1 ≤ 3 ∧
    (Mutable.MaybeIncrementVersion^[3] (NewMutableExisting dSample)).Version =
      ((NewMutableExisting dSample).MaybeIncrementVersion).Version :=
  ⟨by decide, claim_C2 dSample 3 (by decide)⟩

/-- One mutation step preserves the invariant that the working version is
the baseline version or the baseline version plus one. -/
lemma applyOp_version_inv (op : Op) (m : Mutable) (cv : Immutable)
    (h : m.clusterVersion = some cv)
    (hv : m.Version = cv.schemaDescriptor.version ∨
      m.Version = cv.schemaDescriptor.version + 1) :
    (applyOp op m).Version = cv.schemaDescriptor.version ∨
    (applyOp op m).Version = cv.schemaDescriptor.version + 1 := by
  cases op with
  | setName n => exact hv
  | setDrainingNames l => exact hv
  | maybeIncrementVersion =>
    show (m.MaybeIncrementVersion).Version = _ ∨
      (m.MaybeIncrementVersion).Version = _
    unfold Mutable.MaybeIncrementVersion
    rw [h]
    by_cases hb : m.toImmutable.schemaDescriptor.version =
        cv.schemaDescriptor.version + 1
    · simpa [hb] using hv
    · right
      have hm : m.toImmutable.schemaDescriptor.version =
          cv.schemaDescriptor.version := by
        rcases hv with h1 | h2
        · exact h1
        · exact absurd h2 hb
      simp [hb, Mutable.Version, hm]

/-- A whole mutation sequence preserves the version invariant. -/
lemma applyOps_version_inv (ops : List Op) :
    ∀ (m : Mutable) (cv : Immutable), m.clusterVersion = some cv →
    (m.Version = cv.schemaDescriptor.version ∨
      m.Version = cv.schemaDescriptor.version + 1) →
    ((applyOps ops m).Version = cv.schemaDescriptor.version ∨
      (applyOps ops m).Version = cv.schemaDescriptor.version + 1) := by
  induction ops with
  | nil => intro m cv _ hv; exact hv
  | cons op ops ih =>
    intro m cv h hv
    have h2 : (applyOp op m).clusterVersion = some cv := by
      rw [applyOp_clusterVersion]; exact h
    exact ih (applyOp op m) cv h2 (applyOp_version_inv op m cv h hv)

/-- C10: starting from NewMutableExisting, after any sequence of SetName,
SetDrainingNames and MaybeIncrementVersion operations, the working
version is either the original (baseline) version or the original version
plus one — the working copy never drifts more than one version ahead of
its baseline. -/
theorem claim_C10 (d : SchemaDescriptor) (ops : List Op) :
    (applyOps ops (NewMutableExisting d)).Version =
      (applyOps ops (NewMutableExisting d)).OriginalVersion ∨
    (applyOps ops (NewMutableExisting d)).Version =
      (applyOps ops (NewMutableExisting d)).OriginalVersion + 1 := by
  have hcv : (applyOps ops (NewMutableExisting d)).clusterVersion =
      some (NewImmutable d) := by
    rw [applyOps_clusterVersion]; rfl
  have hov : (applyOps ops (NewMutableExisting d)).OriginalVersion =
      d.version := by
    unfold Mutable.OriginalVersion
    rw [hcv]
    rfl
  rw [hov]
  exact applyOps_version_inv ops (NewMutableExisting d) (NewImmutable d)
    rfl (Or.inl rfl)

end Schemadesc
